import Mathlib

/-!
Shallow embedding of the habit-tracker application (`src/habit_track.py`).

Modelling conventions:
* The sqlite database is a `Store` value threaded explicitly through the
  operations; `AUTOINCREMENT` primary keys are the `nextUserId` /
  `nextHabitId` counters.
* `datetime.datetime.now()` is modelled by an explicit `now : Int` argument
  (seconds since the epoch); sqlite3 stores a `datetime` bound as its string
  form, so the stored `date` column is a `String` and writes store
  `toString now`.
* `pd.to_datetime(col, errors="coerce")` keeps every row and turns an
  unparsable cell into `NaT`; a parsed timestamp column cell is therefore an
  `Option Int`, with `none` playing the role of `NaT`.
* Python's `timedelta.days` is floor division of the difference in seconds by
  86400 (`Int.fdiv`), and `.dt.date` reduces a timestamp to its calendar-day
  index, again `Int.fdiv · 86400`.
* Python float arithmetic in `success_rate` is modelled exactly over `ℚ`
  (all quantities involved are small integers and one division).
-/

/-- A row of the `users` table: `id PK AUTOINCREMENT, username, password`. -/
structure UserRow where
  id : Nat
  username : String
  password : String
  deriving Repr, DecidableEq

/-- A row of the `habits` table as stored:
`id PK AUTOINCREMENT, user_id, name, date (DATETIME stored as text), status, notes`.
`notes` is `none` when the SQL insert omitted the column (NULL). -/
structure HabitRow where
  id : Nat
  user_id : Nat
  name : String
  date : String
  status : String
  notes : Option String
  deriving Repr, DecidableEq

/-- The sqlite database `habit_tracker.db` after `create_tables()`. -/
structure Store where
  users : List UserRow
  habits : List HabitRow
  nextUserId : Nat
  nextHabitId : Nat
  deriving Repr, DecidableEq

/-- The freshly created database: both tables empty. -/
def emptyStore : Store := ⟨[], [], 1, 1⟩

/-- `register_user`: `INSERT INTO users (username, password) VALUES (?, ?)`.
The `UNIQUE` constraint on `username` raises `IntegrityError` when the
username already exists; the function then returns `False` and the commit
never happens, so the store is unchanged.  Returns the new store and the
Python return value. -/
def register_user (s : Store) (username password : String) : Store × Bool :=
  if s.users.any (fun r => r.username == username) then
    (s, false)
  else
    ({ s with
        users := s.users ++ [⟨s.nextUserId, username, password⟩],
        nextUserId := s.nextUserId + 1 },
      true)

/-- `login_user`: `SELECT * FROM users WHERE username=? AND password=?` with
`fetchone()`; `None` (here `none`) when no row matches both fields exactly. -/
def login_user (s : Store) (username password : String) : Option UserRow :=
  s.users.find? (fun r => r.username == username && r.password == password)

/-- `add_habit`: inserts one habits row with status `'Started'`, the given
notes and `datetime.datetime.now()` as the date. -/
def add_habit (s : Store) (user_id : Nat) (habit_name notes : String)
    (now : Int) : Store :=
  { s with
      habits := s.habits ++
        [⟨s.nextHabitId, user_id, habit_name, toString now, "Started", some notes⟩],
      nextHabitId := s.nextHabitId + 1 }

/-- `log_habit_progress`: inserts one habits row with the given status and
`datetime.datetime.now()`; the SQL names no `notes` column, so the stored
notes cell is NULL (`none`). -/
def log_habit_progress (s : Store) (user_id : Nat) (habit_name status : String)
    (now : Int) : Store :=
  { s with
      habits := s.habits ++
        [⟨s.nextHabitId, user_id, habit_name, toString now, status, none⟩],
      nextHabitId := s.nextHabitId + 1 }

/-- Accumulate decimal digits; any non-digit character makes the parse fail. -/
def parseNatAux : List Char → Nat → Option Nat
  | [], acc => some acc
  | c :: cs, acc =>
    if c.isDigit then parseNatAux cs (acc * 10 + (c.toNat - '0'.toNat))
    else none

/-- `pd.to_datetime(cell, errors="coerce")` on one stored cell: timestamps
written by this application are integer strings (see the module conventions),
so a cell parses exactly when it is an optional minus sign followed by
decimal digits; an unparsable cell becomes `NaT`, i.e. `none` — the row
itself is never discarded by `errors="coerce"`. -/
def pd_to_datetime_coerce (s : String) : Option Int :=
  match s.data with
  | [] => none
  | '-' :: cs =>
      match cs with
      | [] => none
      | _ => (parseNatAux cs 0).map (fun n => -(n : Int))
  | cs => (parseNatAux cs 0).map (fun n => (n : Int))

/-- An in-memory habit log entry, i.e. a row of the dataframe returned by
`load_user_habits` after the `date` column went through
`pd.to_datetime(..., errors="coerce")`: `date = none` models `NaT`. -/
structure Entry where
  id : Nat
  user_id : Nat
  name : String
  date : Option Int
  status : String
  notes : Option String
  deriving Repr, DecidableEq

/-- The dataframe row obtained from a stored habits row by parsing its date. -/
def rowToEntry (r : HabitRow) : Entry :=
  ⟨r.id, r.user_id, r.name, pd_to_datetime_coerce r.date, r.status, r.notes⟩

/-- `load_user_habits`: `SELECT * FROM habits WHERE user_id=?` followed by
`habits["date"] = pd.to_datetime(habits["date"], errors="coerce")`.
Every selected row is returned; only the `date` cells are transformed. -/
def load_user_habits (s : Store) (user_id : Nat) : List Entry :=
  (s.habits.filter (fun r => r.user_id == user_id)).map rowToEntry

/-- `.dt.date` / reducing a timestamp (seconds) to its calendar-day index;
Python `date` extraction is floor division of the timestamp by 86400. -/
def dateOf (t : Int) : Int := Int.fdiv t 86400

/-- Python's `timedelta.days` of a difference of `d` seconds: floor division
by 86400. -/
def timedeltaDays (d : Int) : Int := Int.fdiv d 86400

/-- `sort_values` comparison on a datetime column cell: `NaT` sorts last. -/
def dateLe : Option Int → Option Int → Bool
  | some a, some b => a ≤ b
  | some _, none => true
  | none, some _ => false
  | none, none => true

/-- Insert a cell into an already `sort_values`-sorted list of cells. -/
def insertDate (x : Option Int) : List (Option Int) → List (Option Int)
  | [] => [x]
  | y :: ys => if dateLe y x then y :: insertDate x ys else x :: y :: ys

/-- `Series.sort_values()` on a datetime column: ascending, `NaT` last. -/
def sortDates : List (Option Int) → List (Option Int)
  | [] => []
  | x :: xs => insertDate x (sortDates xs)

/-- One iteration of the `for date in dates` loop of `calculate_streaks`,
acting on the state `(max_streak, current_streak, prev_date)`; initially
`prev_date` is `None` (the outer `none`).  The guard
`prev_date and (date - prev_date).days == 1` is false when `prev_date` is
`None`, and also whenever either value is `NaT`, because `NaT` arithmetic
never compares equal to `1`. -/
def streakStep : Nat × Nat × Option (Option Int) → Option Int →
    Nat × Nat × Option (Option Int)
  | (max_streak, current_streak, prev_date), date =>
    let current' :=
      match prev_date, date with
      | some (some p), some d =>
          if timedeltaDays (d - p) == 1 then current_streak + 1 else 1
      | _, _ => 1
    (max max_streak current', current', some date)

/-- The body of `calculate_streaks` for one habit: walk the sorted dates and
return the final `max_streak` (`0` for an empty date list). -/
def habitStreak (dates : List (Option Int)) : Nat :=
  (dates.foldl streakStep (0, 0, none)).1

/-- Walk the name column keeping the first occurrence of each name; `seen`
is the set of names already emitted. -/
def uniqueNamesAux : List String → List String → List String
  | [], _ => []
  | n :: ns, seen =>
    if n ∈ seen then uniqueNamesAux ns seen
    else n :: uniqueNamesAux ns (n :: seen)

/-- `habit_data["name"].unique()`: distinct names in first-appearance order. -/
def uniqueNames (l : List String) : List String := uniqueNamesAux l []

/-- `calculate_streaks`: for each habit name (in `unique()` order), sort that
habit's dates and run the streak loop; the Python dict is the association
list keyed by the (duplicate-free) unique names. -/
def calculate_streaks (habit_data : List Entry) : List (String × Nat) :=
  (uniqueNames (habit_data.map (fun e => e.name))).map (fun habit =>
    (habit,
      habitStreak (sortDates
        ((habit_data.filter (fun e => e.name == habit)).map (fun e => e.date)))))

/-- The `filtered_data` selection of the visualization page: rows whose
`name` equals the selected habit and whose `date.dt.date` lies between
`start_date` and `end_date` (dates given as calendar-day indices).  A `NaT`
date satisfies neither comparison, so such rows are excluded. -/
def filtered_data (habit_data : List Entry) (selected_habit : String)
    (start_date end_date : Int) : List Entry :=
  habit_data.filter (fun e =>
    e.name == selected_habit &&
      (match e.date with
        | some t => decide (start_date ≤ dateOf t) && decide (dateOf t ≤ end_date)
        | none => false))

/-- `success_rate = (completed_logs / total_logs) * 100 if total_logs else 0`
computed over the filtered rows. -/
def success_rate (fd : List Entry) : ℚ :=
  let total_logs : Nat := fd.length
  let completed_logs : Nat := (fd.filter (fun e => e.status == "completed")).length
  if total_logs ≠ 0 then ((completed_logs : ℚ) / (total_logs : ℚ)) * 100 else 0

/-- A progress-log entry (status `"completed"`) for habit `h` at raw
timestamp `t` seconds, as it appears in a loaded dataframe. -/
def loggedEntry (h : String) (t : Int) : Entry :=
  ⟨0, 1, h, some t, "completed", none⟩

/-- A log entry for habit `h` at midnight of calendar day `day`. -/
def midnightEntry (h : String) (day : Int) : Entry :=
  loggedEntry h (day * 86400)

/-- A store holding one habits row whose stored date text is unparsable. -/
def badDateStore : Store :=
  ⟨[⟨1, "u", "p"⟩], [⟨1, 1, "Read", "not a date", "Started", none⟩], 2, 2⟩

/-- Three filtered rows: two `"completed"`, one `"skipped"`. -/
def exCompleted1 : Entry := ⟨1, 1, "Read", some 0, "completed", none⟩

/-- Second `"completed"` example row. -/
def exCompleted2 : Entry := ⟨2, 1, "Read", some 86400, "completed", none⟩

/-- A `"skipped"` example row. -/
def exSkipped : Entry := ⟨3, 1, "Read", some 172800, "skipped", none⟩

/-- C4: for every collection of entries, `success_rate` equals
`100 * count(status == "completed") / total` and lies in `[0, 100]`; on an
empty collection it is `0` with no division by zero; in particular
`success_rate [] = 0` and on two completed plus one skipped entry it is
`(2/3) * 100`. -/
theorem success_rate_spec :
    (∀ fd : List Entry,
        success_rate fd =
          (if fd.length = 0 then 0
            else
              100 * ((fd.filter (fun e => e.status == "completed")).length : ℚ) /
                (fd.length : ℚ)) ∧
        0 ≤ success_rate fd ∧ success_rate fd ≤ 100) ∧
    success_rate [] = 0 ∧
    success_rate [exCompleted1, exCompleted2, exSkipped] = (2 / 3) * 100 := by
  refine ⟨fun fd => ?_, by simp [success_rate], ?_⟩
  case refine_2 =>
    have h2 : (([exCompleted1, exCompleted2, exSkipped] : List Entry).filter
        (fun e => e.status == "completed")).length = 2 := by decide
    have h3 : ([exCompleted1, exCompleted2, exSkipped] : List Entry).length = 3 := by decide
    simp only [success_rate, h2, h3]
    norm_num
  by_cases h : fd.length = 0
  · simp [success_rate, h]
  · have hpos : (0 : ℚ) < (fd.length : ℚ) := by
      exact_mod_cast Nat.pos_of_ne_zero h
    have hle : ((fd.filter (fun e => e.status == "completed")).length : ℚ) ≤
        (fd.length : ℚ) := by
      exact_mod_cast List.length_filter_le _ fd
    have hnn : (0 : ℚ) ≤
        ((fd.filter (fun e => e.status == "completed")).length : ℚ) := by
      positivity
    have hsr : success_rate fd =
        ((fd.filter (fun e => e.status == "completed")).length : ℚ) /
          (fd.length : ℚ) * 100 := by
      simp only [success_rate]
      rw [if_pos h]
    refine ⟨?_, ?_, ?_⟩
    · rw [hsr, if_neg h]; ring
    · rw [hsr]; positivity
    · rw [hsr, div_mul_eq_mul_div, div_le_iff₀ hpos]
      nlinarith

/-- C7: when a registration succeeded, registering the same username again
fails (returns `false`) and leaves the store exactly as it was, and the
first user's stored password is still the original one. -/
theorem register_user_duplicate (s : Store) (u pw pw2 : String)
    (h : (register_user s u pw).2 = true) :
    register_user (register_user s u pw).1 u pw2 = ((register_user s u pw).1, false) ∧
    (((register_user s u pw).1.users.find? (fun r => r.username == u)).map
        (fun r => r.password)) = some pw := by
  have hany : s.users.any (fun r => r.username == u) = false := by
    by_cases hc : s.users.any (fun r => r.username == u)
    · simp [register_user, hc] at h
    · simpa using hc
  have hs1 : (register_user s u pw).1 =
      { s with
          users := s.users ++ [⟨s.nextUserId, u, pw⟩],
          nextUserId := s.nextUserId + 1 } := by
    simp [register_user, hany]
  have hnone : s.users.find? (fun r => r.username == u) = none := by
    rw [List.find?_eq_none]
    intro r hr
    have := List.any_eq_false.mp hany r hr
    simpa using this
  constructor
  · rw [hs1]
    have : (s.users ++ [(⟨s.nextUserId, u, pw⟩ : UserRow)]).any
        (fun r => r.username == u) = true := by
      simp [List.any_append]
    simp [register_user, this]
  · rw [hs1]
    simp only [List.find?_append, hnone, Option.none_or]
    simp [List.find?]

/-- Witness for C7 at a concrete input: registering `"alice"` twice on the
fresh store. -/
theorem register_user_duplicate_witness :
    (register_user emptyStore "alice" "pw").2 = true ∧
    (register_user (register_user emptyStore "alice" "pw").1 "alice" "pw2" =
        ((register_user emptyStore "alice" "pw").1, false) ∧
      (((register_user emptyStore "alice" "pw").1.users.find?
            (fun r => r.username == "alice")).map (fun r => r.password)) =
        some "pw") :=
  ⟨by decide, register_user_duplicate emptyStore "alice" "pw" "pw2" (by decide)⟩

/-- C8: `login_user` returns a row exactly when some stored user matches both
username and password; any returned row matches both fields exactly; and a
wrong password for the existing user `"alice"` yields no session. -/
theorem login_user_spec (s : Store) (username password : String) :
    ((login_user s username password).isSome ↔
      ∃ r ∈ s.users, r.username = username ∧ r.password = password) ∧
    ((login_user s username password).all
      (fun r => r.username == username && r.password == password)) = true ∧
    login_user (register_user emptyStore "alice" "pw").1 "alice" "wrong" = none := by
  refine ⟨?_, ?_, by decide⟩
  · rw [login_user, List.find?_isSome]
    constructor
    · rintro ⟨r, hr, hp⟩
      simp only [Bool.and_eq_true, beq_iff_eq] at hp
      exact ⟨r, hr, hp⟩
    · rintro ⟨r, hr, h1, h2⟩
      exact ⟨r, hr, by simp [h1, h2]⟩
  · rw [login_user]
    cases hf : s.users.find? (fun r => r.username == username && r.password == password) with
    | none => rfl
    | some r => simpa using List.find?_some hf

/-- C9: `log_habit_progress` appends exactly one habits row with the given
name and status and a NULL notes cell — with no check that the name was ever
added — and that entry is retrievable through `load_user_habits`. -/
theorem log_habit_progress_spec (s : Store) (uid : Nat) (hname status : String)
    (now : Int) :
    (log_habit_progress s uid hname status now).habits =
      s.habits ++ [⟨s.nextHabitId, uid, hname, toString now, status, none⟩] ∧
    ∃ e ∈ load_user_habits (log_habit_progress s uid hname status now) uid,
      e.name = hname ∧ e.status = status ∧ e.notes = none := by
  refine ⟨rfl, ?_⟩
  refine ⟨rowToEntry ⟨s.nextHabitId, uid, hname, toString now, status, none⟩, ?_, rfl, rfl, rfl⟩
  simp only [load_user_habits, log_habit_progress, List.filter_append, List.map_append]
  apply List.mem_append_right
  simp [List.filter]

/-- C5: the visualization page's `filtered_data` selection keeps exactly the
entries whose name equals the selected habit and whose timestamp's calendar
day lies in `[start_date, end_date]`, both endpoints included. -/
theorem filtered_data_spec (hd : List Entry) (selected : String)
    (start_date end_date : Int) (x : Entry) :
    x ∈ filtered_data hd selected start_date end_date ↔
      x ∈ hd ∧ x.name = selected ∧
        ∃ t, x.date = some t ∧ start_date ≤ dateOf t ∧ dateOf t ≤ end_date := by
  simp only [filtered_data, List.mem_filter, Bool.and_eq_true, beq_iff_eq]
  cases hx : x.date with
  | none => simp [hx]
  | some t => simp [hx, and_assoc]

/-- C6: on a store in which user `uid` has no habit entries yet, `add_habit`
followed by `load_user_habits` yields exactly one entry, carrying the given
name, status `"Started"` and the given notes. -/
theorem add_habit_roundtrip (s : Store) (uid : Nat) (hname notes : String)
    (now : Int) (h : s.habits.filter (fun r => r.user_id == uid) = []) :
    (load_user_habits (add_habit s uid hname notes now) uid).map
        (fun e => (e.name, e.status, e.notes)) =
      [(hname, "Started", some notes)] := by
  simp only [load_user_habits, add_habit, List.filter_append, h, List.nil_append]
  simp [List.filter, rowToEntry]

/-- Witness for C6: adding `"Read"` with notes `"daily"` for user 1 on the
fresh store and loading it back. -/
theorem add_habit_roundtrip_witness :
    emptyStore.habits.filter (fun r => r.user_id == 1) = [] ∧
    (load_user_habits (add_habit emptyStore 1 "Read" "daily" 1000) 1).map
        (fun e => (e.name, e.status, e.notes)) =
      [("Read", "Started", some "daily")] :=
  ⟨by decide, add_habit_roundtrip emptyStore 1 "Read" "daily" 1000 (by decide)⟩

/-- C3 counterexample: an unparsable stored timestamp is NOT dropped by
`load_user_habits` — `errors="coerce"` keeps the row and only its date
becomes `NaT` (`none`), so the returned collection is non-empty. -/
theorem load_user_habits_keeps_unparsable_row :
    pd_to_datetime_coerce "not a date" = none ∧
    load_user_habits badDateStore 1 ≠ [] ∧
    (load_user_habits badDateStore 1).map (fun e => e.date) = [none] := by
  refine ⟨by decide, ?_, by decide⟩
  intro hcontra
  exact absurd (congrArg List.length hcontra) (by decide)

/-- C3 (amended): `load_user_habits` returns one entry per stored row of the
user — rows with unparsable timestamps included, their date becoming `NaT`
(`none`) — with all other fields copied unchanged, every returned entry
belonging to the requested user; it returns the empty collection (not an
error) when the user has no rows. -/
theorem load_user_habits_spec (s : Store) (uid : Nat) :
    (load_user_habits s uid).length =
      (s.habits.filter (fun r => r.user_id == uid)).length ∧
    (load_user_habits s uid).map (fun e => (e.id, e.name, e.status, e.notes)) =
      (s.habits.filter (fun r => r.user_id == uid)).map
        (fun r => (r.id, r.name, r.status, r.notes)) ∧
    (load_user_habits s uid).map (fun e => e.date) =
      (s.habits.filter (fun r => r.user_id == uid)).map
        (fun r => pd_to_datetime_coerce r.date) ∧
    ((load_user_habits s uid).all (fun e => e.user_id == uid)) = true ∧
    load_user_habits { s with habits := [] } uid = [] := by
  refine ⟨by simp [load_user_habits], ?_, ?_, ?_, by simp [load_user_habits]⟩
  · simp only [load_user_habits, List.map_map]
    rfl
  · simp only [load_user_habits, List.map_map]
    rfl
  · simp only [load_user_habits, List.all_eq_true]
    intro e he
    rcases List.mem_map.mp he with ⟨r, hr, rfl⟩
    have := (List.mem_filter.mp hr).2
    simpa [rowToEntry] using this

/-- `dateLe` is antisymmetric: mutually comparable cells are equal. -/
theorem dateLe_antisymm {x y : Option Int} (h1 : dateLe x y = true)
    (h2 : dateLe y x = true) : x = y := by
  cases x <;> cases y <;> simp_all [dateLe]
  omega

/-- Inserting the least cell of an already sorted list puts it in front. -/
theorem insertDate_sorted (x : Option Int) (l : List (Option Int))
    (h : (x :: l).Chain' (fun a b => dateLe a b = true)) :
    insertDate x l = x :: l := by
  induction l with
  | nil => rfl
  | cons y ys ih =>
    rw [List.chain'_cons] at h
    obtain ⟨hxy, hys⟩ := h
    rw [insertDate]
    by_cases hyx : dateLe y x = true
    · rw [if_pos hyx]
      have hxy' : x = y := dateLe_antisymm hxy hyx
      subst hxy'
      rw [ih hys]
    · rw [if_neg hyx]

/-- `sort_values` leaves an already sorted date column unchanged. -/
theorem sortDates_sorted (l : List (Option Int))
    (h : l.Chain' (fun a b => dateLe a b = true)) : sortDates l = l := by
  induction l with
  | nil => rfl
  | cons x xs ih =>
    rw [sortDates, ih h.tail]
    exact insertDate_sorted x xs h

/-- `timedelta.days` of a whole-day difference is the day difference. -/
theorem timedeltaDays_mul_sub (a b : Int) :
    timedeltaDays (a * 86400 - b * 86400) = a - b := by
  have h : a * 86400 - b * 86400 = (a - b) * 86400 := by ring
  rw [timedeltaDays, h, Int.mul_fdiv_cancel]
  norm_num

/-- The streak loop step when the previous date is set and both are real. -/
theorem streakStep_some (ms cs : Nat) (p d : Int) (prev : Option (Option Int))
    (hprev : prev = some (some p)) :
    streakStep (ms, cs, prev) (some d) =
      (max ms (if timedeltaDays (d - p) == 1 then cs + 1 else 1),
        (if timedeltaDays (d - p) == 1 then cs + 1 else 1), some (some d)) := by
  subst hprev; rfl

/-- The streak loop step on the first iteration (`prev_date` is `None`). -/
theorem streakStep_start (ms cs : Nat) (d : Option Int) :
    streakStep (ms, cs, none) d = (max ms 1, 1, some d) := by
  cases d <;> rfl

/-- `uniqueNamesAux` emits nothing once every remaining name was seen. -/
theorem uniqueNamesAux_seen (l seen : List String)
    (h : ∀ m ∈ l, m ∈ seen) : uniqueNamesAux l seen = [] := by
  induction l with
  | nil => rfl
  | cons n ns ih =>
    rw [uniqueNamesAux, if_pos (h n (List.mem_cons_self n ns))]
    exact ih (fun m hm => h m (List.mem_cons_of_mem n hm))

/-- `unique()` of a constant, non-empty name column is the one name. -/
theorem uniqueNames_const (h : String) (l : List String)
    (hl : ∀ m ∈ l, m = h) : uniqueNames (h :: l) = [h] := by
  rw [uniqueNames, uniqueNamesAux]
  rw [if_neg (List.not_mem_nil h)]
  rw [uniqueNamesAux_seen l [h] (fun m hm => by rw [hl m hm]; exact List.mem_cons_self h [])]

/-- `calculate_streaks` on a non-empty single-habit log: one dict entry,
keyed by the habit, with the streak of the sorted date column. -/
theorem calculate_streaks_single (h : String) (t : Int) (ts : List Int) :
    calculate_streaks ((t :: ts).map (loggedEntry h)) =
      [(h, habitStreak (sortDates ((t :: ts).map some)))] := by
  have h1 : ((t :: ts).map (loggedEntry h)).map (fun e => e.name) =
      h :: ts.map (fun _ => h) := by
    simp only [List.map_map, List.map_cons]
    rfl
  have h2 : uniqueNames (h :: ts.map (fun _ => h)) = [h] :=
    uniqueNames_const h _ (by
      intro m hm
      rcases List.mem_map.mp hm with ⟨x, _, rfl⟩
      rfl)
  have h3 : ((t :: ts).map (loggedEntry h)).filter (fun e => e.name == h) =
      (t :: ts).map (loggedEntry h) := by
    rw [List.filter_eq_self]
    intro a ha
    rcases List.mem_map.mp ha with ⟨x, _, rfl⟩
    simp [loggedEntry]
  have h4 : ((t :: ts).map (loggedEntry h)).map (fun e => e.date) =
      (t :: ts).map some := by simp [loggedEntry]
  rw [calculate_streaks, h1, h2, List.map_cons, List.map_nil, h3, h4]

/-- C1: `calculate_streaks` compares raw timestamps, not day-reduced ones, so
two entries on consecutive calendar days (day 0 at 23:00 and day 1 at 01:00)
are less than one `timedelta` day apart and the streak resets: the code
reports a longest streak of 1 where the claim requires 2.  A single entry
does yield a streak of 1. -/
theorem calculate_streaks_consecutive_days_bug :
    dateOf 82800 = 0 ∧ dateOf 90000 = 1 ∧
    calculate_streaks [loggedEntry "h" 82800, loggedEntry "h" 90000] = [("h", 1)] ∧
    calculate_streaks [loggedEntry "h" 82800] = [("h", 1)] := by
  decide

/-- C2: midnight entries on three consecutive days, then a gap of `g ≥ 2`
days, then two more consecutive days give a longest streak of 3, not 5: the
current streak resets to 1 at the gap instead of carrying across it. -/
theorem calculate_streaks_gap_resets (h : String) (d g : Int) (hg : 2 ≤ g) :
    calculate_streaks
      [midnightEntry h d, midnightEntry h (d + 1), midnightEntry h (d + 2),
        midnightEntry h (d + 2 + g), midnightEntry h (d + 3 + g)] = [(h, 3)] := by
  have hlist : [midnightEntry h d, midnightEntry h (d + 1), midnightEntry h (d + 2),
      midnightEntry h (d + 2 + g), midnightEntry h (d + 3 + g)] =
      ([d * 86400, (d + 1) * 86400, (d + 2) * 86400, (d + 2 + g) * 86400,
        (d + 3 + g) * 86400] : List Int).map (loggedEntry h) := by
    simp [midnightEntry]
  rw [hlist, calculate_streaks_single]
  have hsorted : sortDates (([d * 86400, (d + 1) * 86400, (d + 2) * 86400,
      (d + 2 + g) * 86400, (d + 3 + g) * 86400] : List Int).map some) =
      [some (d * 86400), some ((d + 1) * 86400), some ((d + 2) * 86400),
        some ((d + 2 + g) * 86400), some ((d + 3 + g) * 86400)] := by
    apply sortDates_sorted
    simp only [List.map_cons, List.map_nil, List.chain'_cons, List.chain'_singleton,
      dateLe, decide_eq_true_eq, and_true]
    omega
  rw [hsorted]
  have e1 : timedeltaDays ((d + 1) * 86400 - d * 86400) = 1 := by
    rw [timedeltaDays_mul_sub]; omega
  have e2 : timedeltaDays ((d + 2) * 86400 - (d + 1) * 86400) = 1 := by
    rw [timedeltaDays_mul_sub]; omega
  have e3 : timedeltaDays ((d + 2 + g) * 86400 - (d + 2) * 86400) = g := by
    rw [timedeltaDays_mul_sub]; omega
  have e4 : timedeltaDays ((d + 3 + g) * 86400 - (d + 2 + g) * 86400) = 1 := by
    rw [timedeltaDays_mul_sub]; omega
  have hgne : (g == 1) = false := by
    rw [beq_eq_false_iff_ne]; omega
  simp only [habitStreak, List.foldl, streakStep_start, streakStep_some _ _ _ _ _ rfl,
    e1, e2, e3, e4, hgne]
  norm_num

/-- Witness for C2: habit `"run"` logged on days 0, 1, 2, 4, 5. -/
theorem calculate_streaks_gap_resets_witness :
    (2 : Int) ≤ 2 ∧
    calculate_streaks
      [midnightEntry "run" 0, midnightEntry "run" (0 + 1), midnightEntry "run" (0 + 2),
        midnightEntry "run" (0 + 2 + 2), midnightEntry "run" (0 + 3 + 2)] =
      [("run", 3)] :=
  ⟨by norm_num, calculate_streaks_gap_resets "run" 0 2 (by norm_num)⟩

/-- C10: a second entry for the same habit on the same calendar day makes the
gap check fail and resets the current streak to 1: duplicating the middle day
of a three-consecutive-day run lowers the reported longest streak from 3
to 2. -/
theorem calculate_streaks_same_day_resets (h : String) (d : Int) :
    calculate_streaks
      [midnightEntry h d, midnightEntry h (d + 1), midnightEntry h (d + 1),
        midnightEntry h (d + 2)] = [(h, 2)] ∧
    calculate_streaks
      [midnightEntry h d, midnightEntry h (d + 1), midnightEntry h (d + 2)] =
      [(h, 3)] := by
  have e1 : timedeltaDays ((d + 1) * 86400 - d * 86400) = 1 := by
    rw [timedeltaDays_mul_sub]; omega
  have e0 : timedeltaDays ((d + 1) * 86400 - (d + 1) * 86400) = 0 := by
    rw [timedeltaDays_mul_sub]; omega
  have e2 : timedeltaDays ((d + 2) * 86400 - (d + 1) * 86400) = 1 := by
    rw [timedeltaDays_mul_sub]; omega
  have h01 : ((0 : Int) == 1) = false := by decide
  constructor
  · have hlist : [midnightEntry h d, midnightEntry h (d + 1), midnightEntry h (d + 1),
        midnightEntry h (d + 2)] =
        ([d * 86400, (d + 1) * 86400, (d + 1) * 86400, (d + 2) * 86400] :
          List Int).map (loggedEntry h) := by
      simp [midnightEntry]
    rw [hlist, calculate_streaks_single]
    have hsorted : sortDates (([d * 86400, (d + 1) * 86400, (d + 1) * 86400,
        (d + 2) * 86400] : List Int).map some) =
        [some (d * 86400), some ((d + 1) * 86400), some ((d + 1) * 86400),
          some ((d + 2) * 86400)] := by
      apply sortDates_sorted
      simp only [List.map_cons, List.map_nil, List.chain'_cons, List.chain'_singleton,
        dateLe, decide_eq_true_eq, and_true]
      omega
    rw [hsorted]
    simp only [habitStreak, List.foldl, streakStep_start, streakStep_some _ _ _ _ _ rfl,
      e1, e0, e2, h01]
    norm_num
  · have hlist : [midnightEntry h d, midnightEntry h (d + 1), midnightEntry h (d + 2)] =
        ([d * 86400, (d + 1) * 86400, (d + 2) * 86400] : List Int).map (loggedEntry h) := by
      simp [midnightEntry]
    rw [hlist, calculate_streaks_single]
    have hsorted : sortDates (([d * 86400, (d + 1) * 86400, (d + 2) * 86400] :
        List Int).map some) =
        [some (d * 86400), some ((d + 1) * 86400), some ((d + 2) * 86400)] := by
      apply sortDates_sorted
      simp only [List.map_cons, List.map_nil, List.chain'_cons, List.chain'_singleton,
        dateLe, decide_eq_true_eq, and_true]
      omega
    rw [hsorted]
    simp only [habitStreak, List.foldl, streakStep_start, streakStep_some _ _ _ _ _ rfl,
      e1, e2]
    norm_num
